import Mathlib

/-!
Verification of the `parallel` concurrency toolkit: shallow embedding of the
state engine (src/src/state.h), the worker-pool task queue
(src/src/thread_pool.cpp), the timer's delayed-task phase machine and
due-time queue (src/src/timer.cpp), and the scoped-release helper
(src/defer.h), with theorems checking the specification's claims.
-/

namespace parallel

/-! ## Scoped release helper, src/defer.h (`parallel::Defer`)

The callback itself is kept abstract; the model tracks the `called` flag,
which is the only state deciding whether the callback fires.  `Defer(Callback)`
sets `called = false`; `run()` invokes the callback and then `pass()` when the
flag is clear; the destructor calls `run()`; the move constructor copies the
flag and `pass()`es the source. -/

structure Defer where
  called : Bool
deriving DecidableEq

/-- Construction from a callback: `Defer(Callback callback) : called(false)`. -/
def Defer.init : Defer := { called := false }

/-- One `run()` call: if `!called` the callback fires (second component `true`)
and the flag is set; otherwise nothing happens. -/
def Defer.runStep (d : Defer) : Defer × Bool :=
  if d.called then (d, false) else ({ called := true }, true)

/-- Explicit cancellation `pass()`: marks the callback consumed. -/
def Defer.pass (_d : Defer) : Defer := { called := true }

/-- Move construction: the new value copies `called`, the moved-from value is
`pass()`ed.  First component is the new value, second the moved-from one. -/
def Defer.moveFrom (d : Defer) : Defer × Defer :=
  ({ called := d.called }, { called := true })

/-- Destruction `~Defer() { run(); }`: reports whether the callback fired. -/
def Defer.destroy (d : Defer) : Bool := (d.runStep).2

/-- Operations a `Defer` value can undergo during its lifetime that the spec
talks about: explicit `run()` calls and being moved from. -/
inductive DeferOp where
  | run
  | moveOut
deriving DecidableEq

/-- Number of times the callback fires along a lifetime: the listed operations
happen in order and the scope then ends, destroying the value.  After a move
the callback lives in the move target, so the count follows the target; the
moved-from value fires nothing (see `Defer.moveFrom` and `c9` below). -/
def Defer.invocations : Defer → List DeferOp → Nat
  | d, [] => if d.destroy then 1 else 0
  | d, DeferOp.run :: ops =>
      (if (d.runStep).2 then 1 else 0) + Defer.invocations (d.runStep).1 ops
  | d, DeferOp.moveOut :: ops => Defer.invocations (d.moveFrom).1 ops

/-! ## State engine, src/src/state.h (`parallel::state`)

Phases live behind `std::shared_ptr`; the engine compares pointers, not
values.  A pointer is modelled as an address paired with the pointee value;
`make_shared` yields a fresh address. -/

namespace state

/-- A `std::shared_ptr<State>`: identity (`addr`) plus pointee value. -/
structure SPtr (P : Type) where
  addr : Nat
  val : P
deriving DecidableEq

/-- Return value of a phase method, `parallel::state::Request<State>`:
`result` plus an optional replacement phase. -/
structure Request (P : Type) where
  result : Bool
  newState : Option (SPtr P)
deriving DecidableEq

/-- The `Request(bool result)` constructor: no new state. -/
def Request.ofBool {P : Type} (b : Bool) : Request P :=
  { result := b, newState := none }

/-- The `Request(std::shared_ptr<State> newState)` constructor: `result` is
the truthiness of the pointer. -/
def Request.ofPtr {P : Type} (p : Option (SPtr P)) : Request P :=
  { result := p.isSome, newState := p }

/-- Core of `BaseSwitcher::operator()`.  `persistent` is the snapshot of the
guarded pointer taken at entry; `current` is the guarded pointer at the moment
the phase method has returned (it can differ from `persistent` only if the
method suspended in a condition wait and another thread swapped the phase).
Returns the guarded pointer after the call and the value returned to the
caller:

    auto persistent = state;
    auto [ result, newState ] = call(persistent);
    if (state != persistent) return false;
    if (result && newState) state.swap(newState);
    return result;
-/
def baseSwitcher {P : Type} (current persistent : SPtr P) (req : Request P) :
    SPtr P × Bool :=
  if current.addr ≠ persistent.addr then
    (current, false)
  else
    match req.newState, req.result with
    | some p, true => (p, true)
    | some _, false => (current, false)
    | none, r => (current, r)

end state

/-! ## Worker pool, src/src/thread_pool.cpp (`TaskQueue` / `SimpleThreadPool`)

A pool task is a `std::function<void()>`; an empty function is `none`.
Concrete task bodies are identified by a `Nat`. -/

/-- The pool's FIFO queue: the `_quit` flag and the pending tasks. -/
structure TaskQueue where
  quit : Bool
  queue : List Nat
deriving DecidableEq

/-- `TaskQueue::addTask`: `if (_quit || !task) return false;` otherwise push
at the back, notify a worker and return true. -/
def TaskQueue.addTask (q : TaskQueue) (task : Option Nat) : TaskQueue × Bool :=
  match task with
  | none => (q, false)
  | some t =>
      if q.quit then (q, false)
      else ({ q with queue := q.queue ++ [t] }, true)

/-- `TaskQueue::stop`: set `_quit` and broadcast. -/
def TaskQueue.stop (q : TaskQueue) : TaskQueue := { q with quit := true }

/-- `TaskQueue::getTask`, as seen from the state at the moment the call starts
running under the lock.  A call that begins with `_quit` set falls through the
`while (!_quit)` loop and returns the empty task; otherwise the head of a
non-empty queue is taken.  (The empty-queue branch blocks in
`waitForNotification`; the model returns `none` for a pass that would block,
which no claim below depends on.) -/
def TaskQueue.getTask (q : TaskQueue) : TaskQueue × Option Nat :=
  if q.quit then (q, none)
  else
    match q.queue with
    | t :: rest => ({ q with queue := rest }, some t)
    | [] => (q, none)

/-- Outcome of one worker iteration around `task()` in
`SimpleThreadPool::run`. -/
inductive WorkerOutcome where
  | completed
  | forwarded (e : Nat)
  | terminated
deriving DecidableEq

/-- Exception path of `SimpleThreadPool::run`: the task body either returns or
throws `e`; `handler` is the exception sink installed at construction
(`none` when no sink was given):

    try { task(); }
    catch (...) {
        if (!_handler) std::terminate();
        _handler(std::current_exception());
    }
-/
def runWorkerTask (handler : Option Nat) (task : Except Nat Unit) : WorkerOutcome :=
  match task with
  | Except.ok _ => WorkerOutcome.completed
  | Except.error e =>
      match handler with
      | none => WorkerOutcome.terminated
      | some _ => WorkerOutcome.forwarded e

/-! ## Delayed-task phase machine, src/src/timer.cpp (`Timer::DelayedTask`)

One constructor per `State` subclass; exceptions are carried as `Nat`
payloads standing for `std::exception_ptr`.  Thread ids are `Nat`. -/

/-- The dynamic type of the current phase object: `StateWaiting`,
`StateRunning` (with the executor thread id and the `_restartWanted` flag),
`StateDone`, `StateException` (with the captured exception) and
`StateCancelled`. -/
inductive TaskState where
  | waiting
  | running (executor : Nat) (restartWanted : Bool)
  | done
  | exception (e : Nat)
  | cancelled
deriving DecidableEq

/-- Virtual `isWaiting`: overridden to `true` only by `StateWaiting`; the base
returns `false`.  Stated in `Except` because `StateException::isDone` throws
(see `TaskState.isDone`); the remaining predicates never throw. -/
def TaskState.isWaiting : TaskState → Except Nat Bool
  | TaskState.waiting => Except.ok true
  | _ => Except.ok false

/-- Virtual `isRunning`: overridden to `true` only by `StateRunning`. -/
def TaskState.isRunning : TaskState → Except Nat Bool
  | TaskState.running _ _ => Except.ok true
  | _ => Except.ok false

/-- Virtual `isCancelled`: overridden to `true` only by `StateCancelled`. -/
def TaskState.isCancelled : TaskState → Except Nat Bool
  | TaskState.cancelled => Except.ok true
  | _ => Except.ok false

/-- Virtual `isDone`: `StateDone` returns `true`; `StateException` rethrows
the captured exception; everything else returns the base `false`. -/
def TaskState.isDone : TaskState → Except Nat Bool
  | TaskState.done => Except.ok true
  | TaskState.exception e => Except.error e
  | _ => Except.ok false

/-- Virtual `cancel` at the level of phase values: the returned pair is the
`Request` (result, optional new phase).  `StateWaiting` and `StateDone` swap
to `StateCancelled`; `StateRunning` swaps to `StateCancelled` when the caller
is the executor thread and otherwise waits for a phase change and returns the
default-constructed (false) request; `StateException` rethrows; the base
(`StateCancelled`) returns false. -/
def TaskState.cancelV (callerId : Nat) :
    TaskState → Except Nat (Bool × Option TaskState)
  | TaskState.waiting => Except.ok (true, some TaskState.cancelled)
  | TaskState.running exec _ =>
      if exec = callerId then Except.ok (true, some TaskState.cancelled)
      else Except.ok (false, none)
  | TaskState.done => Except.ok (true, some TaskState.cancelled)
  | TaskState.exception e => Except.error e
  | TaskState.cancelled => Except.ok (false, none)

/-- Virtual `restart` at the level of phase values: `StateWaiting` calls back
into the timer to reschedule and returns `true` with no swap; `StateRunning`
sets `_restartWanted` (an in-place mutation of the phase object, reflected in
the returned pair's second component read as the phase after the call);
`StateException` rethrows; the base returns false. -/
def TaskState.restartV : TaskState → Except Nat (Bool × Option TaskState)
  | TaskState.waiting => Except.ok (true, none)
  | TaskState.running exec _ => Except.ok (true, some (TaskState.running exec true))
  | TaskState.exception e => Except.error e
  | _ => Except.ok (false, none)

/-- `DelayedTask::run` for a task whose phase is `ph` when the call starts,
assuming no concurrent phase swap other than the ones made by this thread:

    if (_state.call<&State::run>()) {
        try { _task(); _state.call<&State::done>(); }
        catch (...) { _state.call<&State::exception>(std::current_exception()); }
        _state.notifyAll();
    }

`run()` is accepted only by `StateWaiting`, which installs
`StateRunning(executor, restartWanted = false)`.  `body` is the task body's
outcome.  `restartDuringBody` tells whether a concurrent `restart()` set
`_restartWanted` while the body ran, and `startOk` the outcome of
`task().start()` inside `StateRunning::done`. -/
def runDelayedTask (executor : Nat) (body : Except Nat Unit)
    (restartDuringBody : Bool) (startOk : Bool) : TaskState → TaskState
  | TaskState.waiting =>
      match body with
      | Except.error e => TaskState.exception e
      | Except.ok _ =>
          if restartDuringBody then
            if startOk then TaskState.waiting
            else TaskState.running executor true
          else TaskState.done
  | ph => ph

/-- `StateRunning::cancel` driven through the switcher
(`_state.call<&State::cancel>()` on a task whose persistent snapshot is a
running phase with executor thread `execId`):

    if (_executor == std::this_thread::get_id())
        return std::make_shared<StateCancelled>(task());
    waitForNotification(changed);
    return {};

In the executor branch the lock is never released, so the guarded pointer at
method return is still `persistent`; `fresh` is the `make_shared` result.  In
the other branch the method resumes from the wait only once the guarded
pointer has changed; `current` is the pointer observed then. -/
def runningCancel (execId callerId : Nat)
    (persistent fresh current : state.SPtr TaskState) :
    state.SPtr TaskState × Bool :=
  if execId = callerId then
    state.baseSwitcher persistent persistent (state.Request.ofPtr (some fresh))
  else
    state.baseSwitcher current persistent (state.Request.ofBool false)

/-! ## Timer queue, src/src/timer.cpp (`Timer::Queue`)

Time points are `Nat` (milliseconds on the steady clock).  A `DelayedTask` as
a queue element is its `shared_ptr` identity plus its immutable `_delay`. -/

/-- Identity and configured delay of a `Timer::DelayedTask`. -/
structure DTask where
  id : Nat
  delay : Nat
deriving DecidableEq

/-- `DelayedTask::dueTime`: `steady_clock::now() + _delay`, evaluated at the
time of the call (`now`). -/
def DTask.dueTime (t : DTask) (now : Nat) : Nat := now + t.delay

/-- First-occurrence erase used to model `std::multimap::erase(iterator)` on
the matching entry and `std::unordered_map` entry removal. -/
def eraseFirst {α : Type} [DecidableEq α] (x : α) : List α → List α
  | [] => []
  | y :: rest => if y = x then rest else y :: eraseFirst x rest

/-- `_mapping.find(task)` / lookup in the `unordered_map` from task to
due time. -/
def lookupTask : List (DTask × Nat) → DTask → Option Nat
  | [], _ => none
  | p :: rest, t => if p.1 = t then some p.2 else lookupTask rest t

/-- `map->second = dueTime`: replace, in place, the value of the first entry
whose key is `t`. -/
def updateAssoc : List (DTask × Nat) → DTask → Nat → List (DTask × Nat)
  | [], _, _ => []
  | p :: rest, t, d => if p.1 = t then (t, d) :: rest else p :: updateAssoc rest t d

/-- `_mapping.erase(task)`: remove the entry with key `t` (unordered_map keys
are unique, so removing the first occurrence removes the entry). -/
def eraseKey : List (DTask × Nat) → DTask → List (DTask × Nat)
  | [], _ => []
  | p :: rest, t => if p.1 = t then rest else p :: eraseKey rest t

/-- `std::multimap::emplace(dueTime, task)`: insert at the upper bound of the
key, i.e. after every entry with a key less than or equal to `dueTime`. -/
def placeTaskList (dueTime : Nat) (task : DTask) :
    List (Nat × DTask) → List (Nat × DTask)
  | [] => [(dueTime, task)]
  | (k, v) :: rest =>
      if dueTime < k then (dueTime, task) :: (k, v) :: rest
      else (k, v) :: placeTaskList dueTime task rest

/-- `position == _queue.begin()` after the emplace of `placeTaskList`: true
exactly when the queue was empty or the new key is strictly below the previous
first key. -/
def notifyAtBegin (dueTime : Nat) : List (Nat × DTask) → Bool
  | [] => true
  | (k, _) :: _ => decide (dueTime < k)

/-- `Timer::Queue`: quit flag, capacity, the due-time ordered multimap
(ascending keys, ties in insertion order) and the reverse index. -/
structure TQueue where
  quit : Bool
  maxQueueSize : Nat
  queue : List (Nat × DTask)
  mapping : List (DTask × Nat)
deriving DecidableEq

/-- `Queue::stop`: set `_quit` and notify the dispatcher. -/
def TQueue.stop (q : TQueue) : TQueue := { q with quit := true }

/-- `Queue::addTask` at clock time `now`; returns the queue after the call,
whether the task was accepted, and whether the dispatcher was notified
(`placeTask`'s `notify_one` when the emplace landed at `begin()`):

    if (_quit || _maxQueueSize <= _queue.size()) return false;
    auto dueTime = task->dueTime();
    if (!_mapping.emplace(task, dueTime).second) return false;
    placeTask(dueTime, std::move(task));
    return true;
-/
def TQueue.addTask (q : TQueue) (task : DTask) (now : Nat) :
    TQueue × Bool × Bool :=
  if q.quit = true ∨ q.maxQueueSize ≤ q.queue.length then (q, false, false)
  else
    let dueTime := task.dueTime now
    match lookupTask q.mapping task with
    | some _ => (q, false, false)
    | none =>
        ({ q with
            mapping := (task, dueTime) :: q.mapping,
            queue := placeTaskList dueTime task q.queue },
          true, notifyAtBegin dueTime q.queue)

/-- `Queue::rescheduleTask` at clock time `now`:

    if (_quit) return false;
    auto map = _mapping.find(task);
    if (map == _mapping.end()) return false;
    erase the queue entry (map->second, task);
    auto dueTime = task->dueTime();
    map->second = dueTime;
    placeTask(dueTime, std::move(task));
    return true;
-/
def TQueue.rescheduleTask (q : TQueue) (task : DTask) (now : Nat) :
    TQueue × Bool × Bool :=
  if q.quit then (q, false, false)
  else
    match lookupTask q.mapping task with
    | none => (q, false, false)
    | some oldTime =>
        let queue1 := eraseFirst (oldTime, task) q.queue
        let dueTime := task.dueTime now
        ({ q with
            mapping := updateAssoc q.mapping task dueTime,
            queue := placeTaskList dueTime task queue1 },
          true, notifyAtBegin dueTime queue1)

/-- `Queue::getTask`, one non-blocking pass at clock time `now`: with `_quit`
set the call returns no task; with a ready head (`taskIsReady`, first key at
most `now`) the head is popped from both maps; otherwise the dispatcher waits
(modelled as returning no task on this pass). -/
def TQueue.getTask (q : TQueue) (now : Nat) : TQueue × Option DTask :=
  if q.quit then (q, none)
  else
    match q.queue with
    | (k, t) :: rest =>
        if k ≤ now then
          ({ q with queue := rest, mapping := eraseKey q.mapping t }, some t)
        else (q, none)
    | [] => (q, none)

/-- `Queue::cancelAll` drives each queued task's phase machine; the two maps
themselves are untouched. -/
def TQueue.cancelAll (q : TQueue) : TQueue := q

/-- Invariant (a) of the spec: the reverse index holds exactly the
associations of the due-time map (each queue entry `(dueTime, task)` appears
as `(task, dueTime)` and nothing else), with unique task keys. -/
def TQueue.agree (q : TQueue) : Prop :=
  List.Perm q.mapping (q.queue.map Prod.swap) ∧ (q.mapping.map Prod.fst).Nodup

/-- Invariant (c) of the spec: the queue never exceeds the capacity. -/
def TQueue.sizeOk (q : TQueue) : Prop := q.queue.length ≤ q.maxQueueSize

instance (q : TQueue) : Decidable q.agree := by
  unfold TQueue.agree
  exact inferInstance

instance (q : TQueue) : Decidable q.sizeOk := by
  unfold TQueue.sizeOk
  exact inferInstance

/-! ## Theorems -/

/-- C1 counterexample: with the phase handle changed during the call
(`current.addr = 1`, `persistent.addr = 0`) and the method having computed
`accepted = true`, `BaseSwitcher::operator()` returns `false` to the caller,
not the raw accepted value the claim promises. -/
theorem c1_counterexample :
    (state.baseSwitcher (⟨1, 0⟩ : state.SPtr Nat) ⟨0, 0⟩
        (state.Request.ofBool true)).2 = false
    ∧ (state.Request.ofBool true : state.Request Nat).result = true
    ∧ (1 : Nat) ≠ 0 := by
  refine ⟨rfl, rfl, by decide⟩

/-- C1 (amended): for every state-engine call in which, after the invoked
phase method returns, the current phase handle differs from the persistent
snapshot taken at entry, the call installs no new phase and returns `false`
to the caller, regardless of the accepted value the method computed. -/
theorem c1_stale_view {P : Type} (current persistent : state.SPtr P)
    (req : state.Request P) (h : current.addr ≠ persistent.addr) :
    state.baseSwitcher current persistent req = (current, false) := by
  unfold state.baseSwitcher
  rw [if_pos h]

/-- C1 witness: the stale-view rule evaluated at a concrete call. -/
theorem c1_stale_view_witness :
    state.baseSwitcher (⟨1, 5⟩ : state.SPtr Nat) ⟨0, 7⟩
        (state.Request.ofBool true) = (⟨1, 5⟩, false) :=
  c1_stale_view ⟨1, 5⟩ ⟨0, 7⟩ (state.Request.ofBool true) (by decide)

/-- C2: for a call whose phase was not concurrently replaced (the handle at
method return is still the persistent snapshot), a false request leaves the
phase unchanged and yields `false`; a true request without a next phase
leaves the phase unchanged and yields `true`; a true request carrying a next
phase `p` swaps the current phase to `p` and yields `true`. -/
theorem c2_transition_request {P : Type} (persistent p : state.SPtr P) :
    state.baseSwitcher persistent persistent (state.Request.ofBool false)
        = (persistent, false)
    ∧ state.baseSwitcher persistent persistent (state.Request.ofBool true)
        = (persistent, true)
    ∧ state.baseSwitcher persistent persistent (state.Request.ofPtr (some p))
        = (p, true) := by
  refine ⟨?_, ?_, ?_⟩ <;>
    simp [state.baseSwitcher, state.Request.ofBool, state.Request.ofPtr]

/-- C4: a `cancel` on a Running phase made on the executor thread installs
`StateCancelled` and returns `true`; a `cancel` from any other thread resumes
from its wait only once the phase handle has changed, installs nothing and
returns `false`. -/
theorem c4_running_cancel (execId callerId : Nat) (rwant : Bool)
    (persistent fresh current : state.SPtr TaskState)
    (_hper : persistent.val = TaskState.running execId rwant)
    (hfresh : fresh.val = TaskState.cancelled)
    (hwait : execId ≠ callerId → current.addr ≠ persistent.addr) :
    (execId = callerId →
      runningCancel execId callerId persistent fresh current = (fresh, true)
      ∧ (runningCancel execId callerId persistent fresh current).1.val
          = TaskState.cancelled)
    ∧ (execId ≠ callerId →
      runningCancel execId callerId persistent fresh current = (current, false)) := by
  constructor
  · intro he
    have hres : runningCancel execId callerId persistent fresh current
        = (fresh, true) := by
      unfold runningCancel
      rw [if_pos he]
      simp [state.baseSwitcher, state.Request.ofPtr]
    exact ⟨hres, by rw [hres]; exact hfresh⟩
  · intro hne
    unfold runningCancel
    rw [if_neg hne]
    simp [state.baseSwitcher, state.Request.ofBool, hwait hne]

/-- C4 witness: both branches evaluated on concrete pointers (executor thread
0; the foreign-caller branch resumes on a changed handle at address 2). -/
theorem c4_running_cancel_witness :
    (runningCancel 0 0 ⟨0, TaskState.running 0 false⟩ ⟨1, TaskState.cancelled⟩
        ⟨0, TaskState.running 0 false⟩ = (⟨1, TaskState.cancelled⟩, true)
      ∧ (runningCancel 0 0 ⟨0, TaskState.running 0 false⟩ ⟨1, TaskState.cancelled⟩
          ⟨0, TaskState.running 0 false⟩).1.val = TaskState.cancelled)
    ∧ runningCancel 0 1 ⟨0, TaskState.running 0 false⟩ ⟨1, TaskState.cancelled⟩
        ⟨2, TaskState.cancelled⟩ = (⟨2, TaskState.cancelled⟩, false) :=
  ⟨(c4_running_cancel 0 0 false ⟨0, TaskState.running 0 false⟩
      ⟨1, TaskState.cancelled⟩ ⟨0, TaskState.running 0 false⟩ rfl rfl
      (fun h => absurd rfl h)).1 rfl,
   (c4_running_cancel 0 1 false ⟨0, TaskState.running 0 false⟩
      ⟨1, TaskState.cancelled⟩ ⟨2, TaskState.cancelled⟩ rfl rfl
      (fun _ => by decide)).2 (by decide)⟩

/-- C5: once the pool queue's stop signal is set, a `getTask` call issued
after the stop returns no task, and the tasks that were enqueued but not yet
started stay unreturned in the dropped queue. -/
theorem c5_stop_drops_pending (q : TaskQueue) :
    (q.stop).getTask = (q.stop, none) ∧ (q.stop).queue = q.queue := by
  constructor
  · simp [TaskQueue.stop, TaskQueue.getTask]
  · rfl

/-- C7: the pool queue's `addTask` returns false exactly when the pool was
signalled to stop or the submitted task is empty; otherwise the task is
appended at the back of the FIFO queue and true is returned. -/
theorem c7_pool_addTask (q1 q2 : TaskQueue) (task : Option Nat) (t : Nat)
    (hq : q1.quit = false) :
    ((q2.addTask task).2 = false ↔ (q2.quit = true ∨ task = none))
    ∧ q1.addTask (some t) = ({ q1 with queue := q1.queue ++ [t] }, true) := by
  constructor
  · cases task with
    | none => simp [TaskQueue.addTask]
    | some t2 =>
        cases h : q2.quit <;> simp [TaskQueue.addTask, h]
  · simp [TaskQueue.addTask, hq]

/-- C7 witness: a stopped queue rejecting a task and a live queue appending
one. -/
theorem c7_pool_addTask_witness :
    ((TaskQueue.addTask ⟨true, []⟩ (some 3)).2 = false
        ↔ ((⟨true, []⟩ : TaskQueue).quit = true ∨ (some 3 : Option Nat) = none))
    ∧ TaskQueue.addTask ⟨false, [1, 2]⟩ (some 3) = (⟨false, [1, 2, 3]⟩, true) :=
  c7_pool_addTask ⟨false, [1, 2]⟩ ⟨true, []⟩ (some 3) 3 rfl

/-- C8: a pool worker that catches an exception `e` from a task forwards it
to the exception sink when one was installed at construction, and terminates
the process when none was. -/
theorem c8_exception_to_sink (s e : Nat) (task : Except Nat Unit)
    (h : task = Except.error e) :
    runWorkerTask (some s) task = WorkerOutcome.forwarded e
    ∧ runWorkerTask none task = WorkerOutcome.terminated := by
  subst h
  exact ⟨rfl, rfl⟩

/-- C8 witness: a task throwing `2` is forwarded to the sink, or terminates
the process without one. -/
theorem c8_exception_to_sink_witness :
    runWorkerTask (some 0) (Except.error 2) = WorkerOutcome.forwarded 2
    ∧ runWorkerTask none (Except.error 2) = WorkerOutcome.terminated :=
  c8_exception_to_sink 0 2 (Except.error 2) rfl

/-- Helper for C9: along any lifetime the callback fires once when the flag
is clear at the start and never when it is already set. -/
theorem defer_invocations_eq (ops : List DeferOp) (d : Defer) :
    Defer.invocations d ops = if d.called then 0 else 1 := by
  induction ops generalizing d with
  | nil =>
      cases hc : d.called <;>
        simp [Defer.invocations, Defer.destroy, Defer.runStep, hc]
  | cons op rest ih =>
      cases op with
      | run =>
          cases hc : d.called <;>
            simp [Defer.invocations, Defer.runStep, hc, ih]
      | moveOut =>
          cases hc : d.called <;>
            simp [Defer.invocations, Defer.moveFrom, hc, ih]

/-- C9: a Defer constructed with a callback runs it exactly once over any
lifetime made of `run()` calls and moves ended by destruction at scope end;
the moved-from value is marked consumed and its destruction runs nothing; a
second `run()` after the callback has run is a no-op. -/
theorem c9_defer_exactly_once (ops : List DeferOp) (d : Defer) :
    Defer.invocations Defer.init ops = 1
    ∧ ((d.moveFrom).2).called = true
    ∧ ((d.moveFrom).2).destroy = false
    ∧ (((d.runStep).1).runStep).2 = false := by
  refine ⟨?_, rfl, rfl, ?_⟩
  · rw [defer_invocations_eq]
    rfl
  · cases hc : d.called <;> simp [Defer.runStep, hc]

/-- C3 counterexample: on a task whose body threw (Exception phase holding
payload 0), the status predicate `isRunning` returns plain `false` instead of
rethrowing the captured exception, refuting the claim that every status
predicate rethrows. -/
theorem c3_counterexample :
    TaskState.isRunning (TaskState.exception 0) = Except.ok false
    ∧ Except.ok false ≠ (Except.error 0 : Except Nat Bool) := by
  exact ⟨rfl, by simp⟩

/-- C3 (amended): a delayed task whose body throws `e` transitions to the
Exception phase capturing `e`; subsequent `cancel`, `restart` and `is_done`
calls rethrow `e` (the exception is never silently swallowed there), while
the predicates `is_waiting`, `is_running` and `is_cancelled` return `false`
without rethrowing. -/
theorem c3_exception_phase (e caller exec : Nat) (rb so : Bool)
    (body : Except Nat Unit) (h : body = Except.error e) :
    runDelayedTask exec body rb so TaskState.waiting = TaskState.exception e
    ∧ TaskState.cancelV caller (TaskState.exception e) = Except.error e
    ∧ TaskState.restartV (TaskState.exception e) = Except.error e
    ∧ TaskState.isDone (TaskState.exception e) = Except.error e
    ∧ TaskState.isWaiting (TaskState.exception e) = Except.ok false
    ∧ TaskState.isRunning (TaskState.exception e) = Except.ok false
    ∧ TaskState.isCancelled (TaskState.exception e) = Except.ok false := by
  subst h
  exact ⟨rfl, rfl, rfl, rfl, rfl, rfl, rfl⟩

/-- Helper: the multimap emplace is, up to order, a cons. -/
theorem placeTaskList_perm (d : Nat) (t : DTask) (l : List (Nat × DTask)) :
    List.Perm (placeTaskList d t l) ((d, t) :: l) := by
  induction l with
  | nil => exact List.Perm.refl _
  | cons e rest ih =>
      obtain ⟨k, v⟩ := e
      by_cases h : d < k
      · simp only [placeTaskList, if_pos h]
        exact List.Perm.refl _
      · simp only [placeTaskList, if_neg h]
        exact (ih.cons (k, v)).trans (List.Perm.swap (d, t) (k, v) rest)

/-- Helper: the emplace grows the multimap by one entry. -/
theorem placeTaskList_length (d : Nat) (t : DTask) (l : List (Nat × DTask)) :
    (placeTaskList d t l).length = l.length + 1 := by
  rw [(placeTaskList_perm d t l).length_eq]
  rfl

/-- Helper: the emplaced entry is in the multimap. -/
theorem placeTaskList_mem (d : Nat) (t : DTask) (l : List (Nat × DTask)) :
    (d, t) ∈ placeTaskList d t l :=
  (placeTaskList_perm d t l).mem_iff.mpr (List.mem_cons_self _ _)

/-- Helper: a failed reverse-index lookup means the key is absent. -/
theorem lookupTask_none_iff (m : List (DTask × Nat)) (t : DTask) :
    lookupTask m t = none ↔ t ∉ m.map Prod.fst := by
  induction m with
  | nil => simp [lookupTask]
  | cons p rest ih =>
      obtain ⟨a, b⟩ := p
      by_cases h : a = t
      · subst h
        simp [lookupTask]
      · simp [lookupTask, h, ih, Ne.symm h]

/-- Helper: a successful reverse-index lookup exhibits the entry. -/
theorem lookupTask_mem (m : List (DTask × Nat)) (t : DTask) (d : Nat)
    (h : lookupTask m t = some d) : (t, d) ∈ m := by
  induction m with
  | nil => simp [lookupTask] at h
  | cons p rest ih =>
      obtain ⟨a, b⟩ := p
      by_cases ha : a = t
      · subst ha
        simp [lookupTask] at h
        subst h
        exact List.mem_cons_self _ _
      · simp [lookupTask, ha] at h
        exact List.mem_cons_of_mem _ (ih h)

/-- Helper: in-place value update is, up to order, replacing the entry. -/
theorem updateAssoc_perm (m : List (DTask × Nat)) (t : DTask) (old d : Nat)
    (h : lookupTask m t = some old) :
    List.Perm (updateAssoc m t d) ((t, d) :: eraseFirst (t, old) m) := by
  induction m with
  | nil => simp [lookupTask] at h
  | cons p rest ih =>
      obtain ⟨a, b⟩ := p
      by_cases ha : a = t
      · subst ha
        simp [lookupTask] at h
        subst h
        simp only [updateAssoc, if_pos rfl, eraseFirst, if_pos rfl]
        exact List.Perm.refl _
      · simp only [lookupTask, if_neg ha] at h
        have hne : (a, b) ≠ (t, old) := by
          intro he
          exact ha (Prod.ext_iff.mp he).1
        simp only [updateAssoc, if_neg ha, eraseFirst, if_neg hne]
        exact ((ih h).cons (a, b)).trans (List.Perm.swap (t, d) (a, b) _)

/-- Helper: in-place value update keeps the key list unchanged. -/
theorem updateAssoc_keys (m : List (DTask × Nat)) (t : DTask) (old d : Nat)
    (h : lookupTask m t = some old) :
    (updateAssoc m t d).map Prod.fst = m.map Prod.fst := by
  induction m with
  | nil => rfl
  | cons p rest ih =>
      obtain ⟨a, b⟩ := p
      by_cases ha : a = t
      · subst ha
        simp [updateAssoc]
      · simp only [lookupTask, if_neg ha] at h
        simp [updateAssoc, ha, ih h]

/-- Helper: after the in-place update the lookup sees the new value. -/
theorem updateAssoc_lookup (m : List (DTask × Nat)) (t : DTask) (old d : Nat)
    (h : lookupTask m t = some old) :
    lookupTask (updateAssoc m t d) t = some d := by
  induction m with
  | nil => simp [lookupTask] at h
  | cons p rest ih =>
      obtain ⟨a, b⟩ := p
      by_cases ha : a = t
      · subst ha
        simp [updateAssoc, lookupTask]
      · simp only [lookupTask, if_neg ha] at h
        simp [updateAssoc, lookupTask, ha, ih h]

/-- Helper: removing the first occurrence of a present element is, up to
order, uncons. -/
theorem eraseFirst_perm {α : Type} [DecidableEq α] (x : α) (l : List α)
    (h : x ∈ l) : List.Perm l (x :: eraseFirst x l) := by
  induction l with
  | nil => simp at h
  | cons y rest ih =>
      by_cases hy : y = x
      · subst hy
        simp only [eraseFirst, if_pos rfl]
        exact List.Perm.refl _
      · have hx : x ∈ rest := by
          rcases List.mem_cons.mp h with h1 | h1
          · exact absurd h1.symm hy
          · exact h1
        simp only [eraseFirst, if_neg hy]
        exact ((ih hx).cons y).trans (List.Perm.swap x y _)

/-- Helper: keyed erase never invents entries. -/
theorem eraseKey_sublist (m : List (DTask × Nat)) (t : DTask) :
    List.Sublist (eraseKey m t) m := by
  induction m with
  | nil => simp [eraseKey]
  | cons p rest ih =>
      by_cases hp : p.1 = t
      · simp only [eraseKey, if_pos hp]
        exact List.sublist_cons_self p rest
      · simp only [eraseKey, if_neg hp]
        exact ih.cons₂ p

/-- Helper: when every entry under key `t` carries the value `k`, the keyed
erase agrees with erasing the pair `(t, k)`. -/
theorem eraseKey_eq_eraseFirst (m : List (DTask × Nat)) (t : DTask) (k : Nat)
    (hu : ∀ k', (t, k') ∈ m → k' = k) :
    eraseKey m t = eraseFirst (t, k) m := by
  induction m with
  | nil => rfl
  | cons p rest ih =>
      obtain ⟨a, b⟩ := p
      by_cases ha : a = t
      · subst ha
        have hb : b = k := hu b (List.mem_cons_self _ _)
        subst hb
        simp [eraseKey, eraseFirst]
      · have hne : (a, b) ≠ (t, k) := by
          intro he
          exact ha (Prod.ext_iff.mp he).1
        simp only [eraseKey, if_neg ha, eraseFirst, if_neg hne]
        rw [ih (fun k' hk' => hu k' (List.mem_cons_of_mem _ hk'))]

/-- Helper: under the agreement invariant the reverse index holds exactly one
entry for the task at the head of the queue, and it carries the head's key. -/
theorem unique_key_of_agree (m L : List (DTask × Nat)) (t : DTask) (k : Nat)
    (hperm : List.Perm m ((t, k) :: L)) (hnod : (m.map Prod.fst).Nodup) :
    (∀ k', (t, k') ∈ m → k' = k) ∧ (t, k) ∈ m := by
  have hmapperm : List.Perm (m.map Prod.fst) (t :: L.map Prod.fst) :=
    hperm.map Prod.fst
  have hnod2 : (t :: L.map Prod.fst).Nodup := hmapperm.nodup_iff.mp hnod
  have htL : t ∉ L.map Prod.fst := (List.nodup_cons.mp hnod2).1
  constructor
  · intro k' hk'
    rcases List.mem_cons.mp (hperm.mem_iff.mp hk') with h1 | h1
    · exact (Prod.ext_iff.mp h1).2
    · exact absurd (List.mem_map_of_mem Prod.fst h1) htL
  · exact hperm.mem_iff.mpr (List.mem_cons_self _ _)

/-- Helper: membership transferred through the orientation swap. -/
theorem mem_of_swap_mem (l : List (Nat × DTask)) (t : DTask) (k : Nat)
    (h : (t, k) ∈ l.map Prod.swap) : (k, t) ∈ l := by
  rcases List.mem_map.mp h with ⟨⟨a, b⟩, ha, hab⟩
  have h1 : b = t ∧ a = k := by
    simpa [Prod.ext_iff] using hab
  rcases h1 with ⟨hb, hA⟩
  subst hb
  subst hA
  exact ha

/-- Helper: the failure branch of `Queue::addTask` on a stopped or full
queue. -/
theorem addTask_fail (q : TQueue) (t : DTask) (n : Nat)
    (h : q.quit = true ∨ q.maxQueueSize ≤ q.queue.length) :
    q.addTask t n = (q, false, false) := by
  simp [TQueue.addTask, if_pos h]

/-- Helper: the failure branch of `Queue::addTask` on a duplicate emplace. -/
theorem addTask_dup (q : TQueue) (t : DTask) (n : Nat) (d : Nat)
    (_h1 : ¬(q.quit = true ∨ q.maxQueueSize ≤ q.queue.length))
    (h2 : lookupTask q.mapping t = some d) :
    q.addTask t n = (q, false, false) := by
  simp [TQueue.addTask, h2]

/-- Helper: the success branch of `Queue::addTask`. -/
theorem addTask_success (q : TQueue) (t : DTask) (n : Nat)
    (h1 : q.quit = false) (h2 : q.queue.length < q.maxQueueSize)
    (h3 : lookupTask q.mapping t = none) :
    q.addTask t n =
      ({ q with mapping := (t, t.dueTime n) :: q.mapping,
                queue := placeTaskList (t.dueTime n) t q.queue },
       true, notifyAtBegin (t.dueTime n) q.queue) := by
  have hc : ¬(q.quit = true ∨ q.maxQueueSize ≤ q.queue.length) := by
    rw [h1]
    simp only [Bool.false_eq_true, false_or, Nat.not_le]
    exact h2
  simp [TQueue.addTask, if_neg hc, h3]

/-- Helper: the success branch of `Queue::rescheduleTask`. -/
theorem reschedule_success (q : TQueue) (t : DTask) (n old : Nat)
    (h1 : q.quit = false) (h2 : lookupTask q.mapping t = some old) :
    q.rescheduleTask t n =
      ({ q with mapping := updateAssoc q.mapping t (t.dueTime n),
                queue := placeTaskList (t.dueTime n) t (eraseFirst (old, t) q.queue) },
       true, notifyAtBegin (t.dueTime n) (eraseFirst (old, t) q.queue)) := by
  simp [TQueue.rescheduleTask, h1, h2]

/-- Helper: `Queue::addTask` preserves the agreement and capacity
invariants. -/
theorem addTask_preserves (q : TQueue) (t : DTask) (n : Nat)
    (hagree : q.agree) (hsize : q.sizeOk) :
    ((q.addTask t n).1).agree ∧ ((q.addTask t n).1).sizeOk := by
  by_cases hc : q.quit = true ∨ q.maxQueueSize ≤ q.queue.length
  · rw [addTask_fail q t n hc]
    exact ⟨hagree, hsize⟩
  · have hq : q.quit = false := by
      simpa using fun h => hc (Or.inl h)
    have hlen : q.queue.length < q.maxQueueSize := by
      rcases Nat.lt_or_ge q.queue.length q.maxQueueSize with h | h
      · exact h
      · exact absurd (Or.inr h) hc
    cases hl : lookupTask q.mapping t with
    | some d =>
        rw [addTask_dup q t n d hc hl]
        exact ⟨hagree, hsize⟩
    | none =>
        rw [addTask_success q t n hq hlen hl]
        refine ⟨⟨?_, ?_⟩, ?_⟩
        · exact (hagree.1.cons (t, t.dueTime n)).trans
            ((placeTaskList_perm (t.dueTime n) t q.queue).map Prod.swap).symm
        · simp only [List.map_cons]
          exact List.nodup_cons.mpr ⟨(lookupTask_none_iff _ _).mp hl, hagree.2⟩
        · show (placeTaskList (t.dueTime n) t q.queue).length ≤ q.maxQueueSize
          rw [placeTaskList_length]
          exact hlen

/-- Helper: `Queue::rescheduleTask` preserves the agreement and capacity
invariants. -/
theorem reschedule_preserves (q : TQueue) (t : DTask) (n : Nat)
    (hagree : q.agree) (hsize : q.sizeOk) :
    ((q.rescheduleTask t n).1).agree ∧ ((q.rescheduleTask t n).1).sizeOk := by
  by_cases hquit : q.quit = true
  · simp [TQueue.rescheduleTask, hquit]
    exact ⟨hagree, hsize⟩
  · have hq : q.quit = false := by
      simpa using hquit
    cases hl : lookupTask q.mapping t with
    | none =>
        simp [TQueue.rescheduleTask, hq, hl]
        exact ⟨hagree, hsize⟩
    | some old =>
        rw [reschedule_success q t n old hq hl]
        have hmem_m : (t, old) ∈ q.mapping := lookupTask_mem _ _ _ hl
        have hmem_swap : (t, old) ∈ q.queue.map Prod.swap :=
          hagree.1.mem_iff.mp hmem_m
        have hmem_q : (old, t) ∈ q.queue := mem_of_swap_mem _ _ _ hmem_swap
        have hq_perm : List.Perm q.queue ((old, t) :: eraseFirst (old, t) q.queue) :=
          eraseFirst_perm _ _ hmem_q
        have hms : List.Perm q.mapping
            ((t, old) :: (eraseFirst (old, t) q.queue).map Prod.swap) :=
          hagree.1.trans (hq_perm.map Prod.swap)
        have hef : List.Perm (eraseFirst (t, old) q.mapping)
            ((eraseFirst (old, t) q.queue).map Prod.swap) :=
          ((eraseFirst_perm _ _ hmem_m).symm.trans hms).cons_inv
        refine ⟨⟨?_, ?_⟩, ?_⟩
        · exact (updateAssoc_perm _ _ _ _ hl).trans
            ((hef.cons (t, t.dueTime n)).trans
              ((placeTaskList_perm (t.dueTime n) t
                (eraseFirst (old, t) q.queue)).map Prod.swap).symm)
        · show ((updateAssoc q.mapping t (t.dueTime n)).map Prod.fst).Nodup
          rw [updateAssoc_keys _ _ _ _ hl]
          exact hagree.2
        · show (placeTaskList (t.dueTime n) t
              (eraseFirst (old, t) q.queue)).length ≤ q.maxQueueSize
          rw [placeTaskList_length]
          have h1 := hq_perm.length_eq
          have h2 : q.queue.length ≤ q.maxQueueSize := hsize
          simp only [List.length_cons] at h1
          omega

/-- Helper: `Queue::getTask` preserves the agreement and capacity
invariants. -/
theorem getTask_preserves (q : TQueue) (n : Nat)
    (hagree : q.agree) (hsize : q.sizeOk) :
    ((q.getTask n).1).agree ∧ ((q.getTask n).1).sizeOk := by
  by_cases hquit : q.quit = true
  · simp [TQueue.getTask, hquit]
    exact ⟨hagree, hsize⟩
  · have hq : q.quit = false := by
      simpa using hquit
    cases hqueue : q.queue with
    | nil =>
        simp [TQueue.getTask, hq, hqueue]
        exact ⟨hagree, hsize⟩
    | cons e rest =>
        obtain ⟨k, t⟩ := e
        by_cases hk : k ≤ n
        · have hms : List.Perm q.mapping ((t, k) :: rest.map Prod.swap) := by
            have := hagree.1
            rw [hqueue] at this
            exact this
          have huk := unique_key_of_agree q.mapping (rest.map Prod.swap) t k hms hagree.2
          have herase : eraseKey q.mapping t = eraseFirst (t, k) q.mapping :=
            eraseKey_eq_eraseFirst _ _ _ huk.1
          have hef : List.Perm (eraseFirst (t, k) q.mapping) (rest.map Prod.swap) :=
            ((eraseFirst_perm _ _ huk.2).symm.trans hms).cons_inv
          simp only [TQueue.getTask, hq, hqueue, if_pos hk, Bool.false_eq_true,
            if_neg (Bool.false_ne_true)]
          refine ⟨⟨?_, ?_⟩, ?_⟩
          · show List.Perm (eraseKey q.mapping t) (rest.map Prod.swap)
            rw [herase]
            exact hef
          · show ((eraseKey q.mapping t).map Prod.fst).Nodup
            exact hagree.2.sublist ((eraseKey_sublist _ _).map Prod.fst)
          · show rest.length ≤ q.maxQueueSize
            have h2 : q.queue.length ≤ q.maxQueueSize := hsize
            rw [hqueue] at h2
            simp only [List.length_cons] at h2
            omega
        · simp [TQueue.getTask, hq, hqueue, hk]
          exact ⟨hagree, hsize⟩

/-- C3 witness: a body throwing `2` drives a waiting task into the Exception
phase, whose queries behave as stated. -/
theorem c3_exception_phase_witness :
    runDelayedTask 1 (Except.error 2) false false TaskState.waiting
        = TaskState.exception 2
    ∧ TaskState.cancelV 0 (TaskState.exception 2) = Except.error 2
    ∧ TaskState.restartV (TaskState.exception 2) = Except.error 2
    ∧ TaskState.isDone (TaskState.exception 2) = Except.error 2
    ∧ TaskState.isWaiting (TaskState.exception 2) = Except.ok false
    ∧ TaskState.isRunning (TaskState.exception 2) = Except.ok false
    ∧ TaskState.isCancelled (TaskState.exception 2) = Except.ok false :=
  c3_exception_phase 2 0 1 false false (Except.error 2) rfl

/-- C6: the timer queue's `addTask` fails, leaving both maps untouched, when
the queue is stopped or already at capacity; a successful add returns true,
inserts the task with its due time into the due-time order and the reverse
index, and notifies the dispatcher exactly when the new task became the
earliest (empty queue, or a due time strictly below the previous first key);
and every queue operation (`addTask`, `rescheduleTask`, `getTask`, `stop`,
`cancelAll`) preserves agreement of the two maps and the capacity bound. -/
theorem c6_timer_queue (qS qO qE qC qI : TQueue)
    (taskS task taskE taskC t2 t3 : DTask)
    (nowS now nowE nowC n2 n3 n4 : Nat)
    (k : Nat) (v : DTask) (rest : List (Nat × DTask))
    (hSF : qS.quit = true ∨ qS.maxQueueSize ≤ qS.queue.length)
    (hO1 : qO.quit = false) (hO2 : qO.queue.length < qO.maxQueueSize)
    (hO3 : lookupTask qO.mapping task = none)
    (hE1 : qE.quit = false) (hE2 : qE.queue = [])
    (hE3 : 0 < qE.maxQueueSize) (hE4 : lookupTask qE.mapping taskE = none)
    (hC1 : qC.quit = false) (hC2 : qC.queue = (k, v) :: rest)
    (hC3 : qC.queue.length < qC.maxQueueSize)
    (hC4 : lookupTask qC.mapping taskC = none)
    (hIa : qI.agree) (hIs : qI.sizeOk) :
    qS.addTask taskS nowS = (qS, false, false)
    ∧ (qO.addTask task now).2.1 = true
    ∧ (task.dueTime now, task) ∈ ((qO.addTask task now).1).queue
    ∧ lookupTask ((qO.addTask task now).1).mapping task = some (task.dueTime now)
    ∧ (qE.addTask taskE nowE).2.2 = true
    ∧ ((qC.addTask taskC nowC).2.2 = true ↔ taskC.dueTime nowC < k)
    ∧ ((qI.addTask t2 n2).1).agree ∧ ((qI.addTask t2 n2).1).sizeOk
    ∧ ((qI.rescheduleTask t3 n3).1).agree ∧ ((qI.rescheduleTask t3 n3).1).sizeOk
    ∧ ((qI.getTask n4).1).agree ∧ ((qI.getTask n4).1).sizeOk
    ∧ (qI.stop).agree ∧ (qI.stop).sizeOk
    ∧ (qI.cancelAll).agree ∧ (qI.cancelAll).sizeOk := by
  have hadd := addTask_preserves qI t2 n2 hIa hIs
  have hres := reschedule_preserves qI t3 n3 hIa hIs
  have hget := getTask_preserves qI n4 hIa hIs
  refine ⟨addTask_fail qS taskS nowS hSF, ?_, ?_, ?_, ?_, ?_,
    hadd.1, hadd.2, hres.1, hres.2, hget.1, hget.2, hIa, hIs, hIa, hIs⟩
  · rw [addTask_success qO task now hO1 hO2 hO3]
  · rw [addTask_success qO task now hO1 hO2 hO3]
    exact placeTaskList_mem _ _ _
  · rw [addTask_success qO task now hO1 hO2 hO3]
    simp [lookupTask]
  · have hE2' : qE.queue.length < qE.maxQueueSize := by
      rw [hE2]
      exact hE3
    rw [addTask_success qE taskE nowE hE1 hE2' hE4, hE2]
    rfl
  · rw [addTask_success qC taskC nowC hC1 hC3 hC4, hC2]
    simp [notifyAtBegin]

/-- C6 witness: the stopped queue rejects; a fresh queue accepts and notifies;
an insertion behind an existing earlier deadline does not notify; and the
operations preserve the invariants on a concrete one-element queue. -/
theorem c6_timer_queue_witness :
    TQueue.addTask ⟨true, 2, [], []⟩ ⟨0, 1⟩ 0 = (⟨true, 2, [], []⟩, false, false)
    ∧ (TQueue.addTask ⟨false, 2, [], []⟩ ⟨1, 5⟩ 3).2.1 = true
    ∧ (DTask.dueTime ⟨1, 5⟩ 3, (⟨1, 5⟩ : DTask))
        ∈ ((TQueue.addTask ⟨false, 2, [], []⟩ ⟨1, 5⟩ 3).1).queue
    ∧ lookupTask ((TQueue.addTask ⟨false, 2, [], []⟩ ⟨1, 5⟩ 3).1).mapping ⟨1, 5⟩
        = some (DTask.dueTime ⟨1, 5⟩ 3)
    ∧ (TQueue.addTask ⟨false, 2, [], []⟩ ⟨1, 5⟩ 0).2.2 = true
    ∧ ((TQueue.addTask ⟨false, 3, [(10, ⟨9, 0⟩)], [(⟨9, 0⟩, 10)]⟩ ⟨1, 5⟩ 0).2.2 = true
        ↔ DTask.dueTime ⟨1, 5⟩ 0 < 10)
    ∧ ((TQueue.addTask ⟨false, 3, [(10, ⟨9, 0⟩)], [(⟨9, 0⟩, 10)]⟩ ⟨1, 5⟩ 0).1).agree
    ∧ ((TQueue.addTask ⟨false, 3, [(10, ⟨9, 0⟩)], [(⟨9, 0⟩, 10)]⟩ ⟨1, 5⟩ 0).1).sizeOk
    ∧ ((TQueue.rescheduleTask ⟨false, 3, [(10, ⟨9, 0⟩)], [(⟨9, 0⟩, 10)]⟩ ⟨9, 0⟩ 4).1).agree
    ∧ ((TQueue.rescheduleTask ⟨false, 3, [(10, ⟨9, 0⟩)], [(⟨9, 0⟩, 10)]⟩ ⟨9, 0⟩ 4).1).sizeOk
    ∧ ((TQueue.getTask ⟨false, 3, [(10, ⟨9, 0⟩)], [(⟨9, 0⟩, 10)]⟩ 20).1).agree
    ∧ ((TQueue.getTask ⟨false, 3, [(10, ⟨9, 0⟩)], [(⟨9, 0⟩, 10)]⟩ 20).1).sizeOk
    ∧ (TQueue.stop ⟨false, 3, [(10, ⟨9, 0⟩)], [(⟨9, 0⟩, 10)]⟩).agree
    ∧ (TQueue.stop ⟨false, 3, [(10, ⟨9, 0⟩)], [(⟨9, 0⟩, 10)]⟩).sizeOk
    ∧ (TQueue.cancelAll ⟨false, 3, [(10, ⟨9, 0⟩)], [(⟨9, 0⟩, 10)]⟩).agree
    ∧ (TQueue.cancelAll ⟨false, 3, [(10, ⟨9, 0⟩)], [(⟨9, 0⟩, 10)]⟩).sizeOk :=
  c6_timer_queue ⟨true, 2, [], []⟩ ⟨false, 2, [], []⟩ ⟨false, 2, [], []⟩
    ⟨false, 3, [(10, ⟨9, 0⟩)], [(⟨9, 0⟩, 10)]⟩
    ⟨false, 3, [(10, ⟨9, 0⟩)], [(⟨9, 0⟩, 10)]⟩
    ⟨0, 1⟩ ⟨1, 5⟩ ⟨1, 5⟩ ⟨1, 5⟩ ⟨1, 5⟩ ⟨9, 0⟩
    0 3 0 0 0 4 20 10 ⟨9, 0⟩ []
    (Or.inl rfl) rfl (by decide) rfl rfl rfl (by decide) rfl rfl rfl
    (by decide) (by decide) (by decide) (by decide)

/-- C10: `DelayedTask::dueTime` returns the clock reading at the moment of
the call plus the configured delay — a later call yields a strictly later due
time — and a successful reschedule at clock time `now` stores the due time
recomputed at `now` as the task's key, which is what pushes the deadline
forward on a restart from Waiting. -/
theorem c10_dueTime_recomputed (t : DTask) (n1 n2 now : Nat) (q : TQueue)
    (old : Nat) (hq : q.quit = false) (hm : lookupTask q.mapping t = some old)
    (hlt : n1 < n2) :
    t.dueTime n1 = n1 + t.delay
    ∧ t.dueTime n1 < t.dueTime n2
    ∧ (q.rescheduleTask t now).2.1 = true
    ∧ lookupTask ((q.rescheduleTask t now).1).mapping t = some (t.dueTime now) := by
  refine ⟨rfl, ?_, ?_, ?_⟩
  · exact Nat.add_lt_add_right hlt t.delay
  · rw [reschedule_success q t now old hq hm]
  · rw [reschedule_success q t now old hq hm]
    exact updateAssoc_lookup _ _ _ _ hm

/-- C10 witness: a task with delay 3 inserted at time 2 (key 5) and
rescheduled at time 7 gets the fresh key 10 = 7 + 3. -/
theorem c10_dueTime_recomputed_witness :
    DTask.dueTime ⟨0, 3⟩ 2 = 2 + 3
    ∧ DTask.dueTime ⟨0, 3⟩ 2 < DTask.dueTime ⟨0, 3⟩ 7
    ∧ (TQueue.rescheduleTask ⟨false, 2, [(5, ⟨0, 3⟩)], [(⟨0, 3⟩, 5)]⟩ ⟨0, 3⟩ 7).2.1
        = true
    ∧ lookupTask
        ((TQueue.rescheduleTask ⟨false, 2, [(5, ⟨0, 3⟩)], [(⟨0, 3⟩, 5)]⟩ ⟨0, 3⟩ 7).1).mapping
        ⟨0, 3⟩ = some (DTask.dueTime ⟨0, 3⟩ 7) :=
  c10_dueTime_recomputed ⟨0, 3⟩ 2 7 7 ⟨false, 2, [(5, ⟨0, 3⟩)], [(⟨0, 3⟩, 5)]⟩ 5
    rfl (by decide) (by decide)

end parallel
